import Mathlib

/-!
Shallow embedding of the ddd-template verification-mail core.

The Python source mutates dataclass entities in place and signals
precondition violations by raising exceptions before any field is
assigned.  Each entity method is therefore embedded as a step function
returning `Option Err × Entity`: the first component is `some e` exactly
when the Python method raises, and in that case the second component is
the receiver unchanged (the raise happens before any mutation).

Identifiers (UUIDs) are embedded as `Nat`, timestamps as `Nat`.
`BaseEntity` (not under src/) contributes the `id`, `createdAt` fields;
modelled from the spec's data model ("id", "createdAt").  Its
`updated_at` bookkeeping is not referenced by any claim and is omitted.
-/

namespace DddCore

/-- Error value of `InvalidStateTransitionException` (domain/common). -/
structure InvalidStateTransition where
  entity : String
  fromState : String
  toState : String
  reason : String
  deriving DecidableEq, Repr

/-- Error value of `InvalidOperationException` (domain/common). -/
structure InvalidOperation where
  operation : String
  reason : String
  deriving DecidableEq, Repr

/-- WaitRequestStatus enum (domain/verification/value_objects). -/
inductive WaitRequestStatus where
  | pending
  | completed
  | cancelled
  | failed
  deriving DecidableEq, Repr

/-- String value of the `str`-backed enum `WaitRequestStatus`. -/
def WaitRequestStatus.value : WaitRequestStatus → String
  | .pending => "pending"
  | .completed => "completed"
  | .cancelled => "cancelled"
  | .failed => "failed"

/-- MailboxStatus enum (domain/mailbox/value_objects/mailbox_enums). -/
inductive MailboxStatus where
  | available
  | occupied
  deriving DecidableEq, Repr

/-- String value of the `str`-backed enum `MailboxStatus`. -/
def MailboxStatus.value : MailboxStatus → String
  | .available => "available"
  | .occupied => "occupied"

/-- MailboxType enum (domain/mailbox/value_objects/mailbox_enums). -/
inductive MailboxType where
  | domainCatchall
  | hotmail
  deriving DecidableEq, Repr

/-- ExtractionType enum (domain/ai/value_objects/extraction_type). -/
inductive ExtractionType where
  | code
  | link
  | unknown
  deriving DecidableEq, Repr

/-- String value of the `str`-backed enum `ExtractionType`. -/
def ExtractionType.value : ExtractionType → String
  | .code => "code"
  | .link => "link"
  | .unknown => "unknown"

/-- WaitRequest entity (domain/verification/entities/wait_request.py).
`extraction_result` is typed `Optional[str]`; `complete` stores whatever
value the caller passes (at runtime this may be `None`), hence the
`Option String` parameter below. -/
structure WaitRequest where
  id : Nat
  mailboxId : Nat
  email : String
  serviceName : String
  callbackUrl : String
  status : WaitRequestStatus
  completedAt : Option Nat
  extractionResult : Option String
  failureReason : Option String
  createdAt : Nat
  deriving DecidableEq, Repr

/-- WaitRequest.complete: only valid from PENDING; sets status, completedAt
and extractionResult; otherwise raises before mutating. -/
def WaitRequest.complete (r : WaitRequest) (extractionResult : Option String)
    (now : Nat) : Option InvalidStateTransition × WaitRequest :=
  if r.status ≠ WaitRequestStatus.pending then
    (some ⟨"WaitRequest", r.status.value, WaitRequestStatus.completed.value,
      "Only PENDING requests can be completed"⟩, r)
  else
    (none, { r with
      status := WaitRequestStatus.completed
      completedAt := some now
      extractionResult := extractionResult })

/-- WaitRequest.cancel: only valid from PENDING; otherwise raises before
mutating. -/
def WaitRequest.cancel (r : WaitRequest) :
    Option InvalidStateTransition × WaitRequest :=
  if r.status ≠ WaitRequestStatus.pending then
    (some ⟨"WaitRequest", r.status.value, WaitRequestStatus.cancelled.value,
      "Only PENDING requests can be cancelled"⟩, r)
  else
    (none, { r with status := WaitRequestStatus.cancelled })

/-- WaitRequest.fail: only valid from PENDING; sets failureReason; otherwise
raises before mutating. -/
def WaitRequest.fail (r : WaitRequest) (reason : Option String) :
    Option InvalidStateTransition × WaitRequest :=
  if r.status ≠ WaitRequestStatus.pending then
    (some ⟨"WaitRequest", r.status.value, WaitRequestStatus.failed.value,
      "Only PENDING requests can be marked as failed"⟩, r)
  else
    (none, { r with status := WaitRequestStatus.failed, failureReason := reason })

/-- WaitRequest.is_pending property. -/
def WaitRequest.isPending (r : WaitRequest) : Bool :=
  r.status == WaitRequestStatus.pending

/-- WaitRequest.is_completed property. -/
def WaitRequest.isCompleted (r : WaitRequest) : Bool :=
  r.status == WaitRequestStatus.completed

/-- MailboxAccount aggregate root (domain/mailbox/entities/mailbox_account.py).
The `imap_config` and `encrypted_password` value objects are connection
configuration and encrypted credentials; no claim refers to them and they
are not mutated by occupy/release, so they are omitted from the record. -/
structure MailboxAccount where
  id : Nat
  username : String
  mailboxType : MailboxType
  domain : Option String
  status : MailboxStatus
  occupiedByService : Option String
  deriving DecidableEq, Repr

/-- MailboxAccount._validate, run by `__post_init__`. -/
def MailboxAccount.validate (m : MailboxAccount) : Option InvalidOperation :=
  if m.username = "" then
    some ⟨"create_mailbox_account", "Username cannot be empty"⟩
  else if m.mailboxType = MailboxType.domainCatchall ∧ m.domain = none then
    some ⟨"create_mailbox_account",
      "Domain is required for domain_catchall mailbox type"⟩
  else
    none

/-- MailboxAccount.create_domain_catchall factory (password encryption
omitted: the encrypted password plays no part in any claim). -/
def MailboxAccount.createDomainCatchall (username domain : String) (id : Nat) :
    Except InvalidOperation MailboxAccount :=
  let m : MailboxAccount :=
    { id := id
      username := username
      mailboxType := MailboxType.domainCatchall
      domain := some domain
      status := MailboxStatus.available
      occupiedByService := none }
  match m.validate with
  | some e => Except.error e
  | none => Except.ok m

/-- MailboxAccount.create_hotmail factory. -/
def MailboxAccount.createHotmail (username : String) (id : Nat) :
    Except InvalidOperation MailboxAccount :=
  let m : MailboxAccount :=
    { id := id
      username := username
      mailboxType := MailboxType.hotmail
      domain := none
      status := MailboxStatus.available
      occupiedByService := none }
  match m.validate with
  | some e => Except.error e
  | none => Except.ok m

/-- MailboxAccount.occupy: raises if already OCCUPIED, else sets status and
occupiedByService together. -/
def MailboxAccount.occupy (m : MailboxAccount) (serviceName : String) :
    Option InvalidStateTransition × MailboxAccount :=
  if m.status = MailboxStatus.occupied then
    (some ⟨"MailboxAccount", m.status.value, MailboxStatus.occupied.value,
      "Mailbox is already occupied"⟩, m)
  else
    (none, { m with
      status := MailboxStatus.occupied
      occupiedByService := some serviceName })

/-- MailboxAccount.release: raises if already AVAILABLE, else clears status
and occupiedByService together. -/
def MailboxAccount.release (m : MailboxAccount) :
    Option InvalidStateTransition × MailboxAccount :=
  if m.status = MailboxStatus.available then
    (some ⟨"MailboxAccount", m.status.value, MailboxStatus.available.value,
      "Mailbox is not occupied"⟩, m)
  else
    (none, { m with
      status := MailboxStatus.available
      occupiedByService := none })

/-- MailboxAccount.is_occupied property. -/
def MailboxAccount.isOccupied (m : MailboxAccount) : Bool :=
  m.status == MailboxStatus.occupied

/-- The lease invariant of the spec's data model: occupiedByService is
non-null iff the status is Occupied. -/
def MailboxAccount.leaseInvariant (m : MailboxAccount) : Prop :=
  m.occupiedByService ≠ none ↔ m.status = MailboxStatus.occupied

instance (m : MailboxAccount) : Decidable m.leaseInvariant := by
  unfold MailboxAccount.leaseInvariant
  infer_instance

/-- Email entity (domain/mail/entities/email.py).  The `__post_init__`
validation (non-empty messageId) is enforced by the `Email.create` factory
below; `received_at` is `Optional [datetime]`. -/
structure Email where
  id : Nat
  mailboxId : Nat
  fromAddress : String
  subject : String
  bodyText : Option String
  bodyHtml : Option String
  receivedAt : Option Nat
  messageId : String
  isProcessed : Bool
  deriving DecidableEq, Repr

/-- Email.create factory: `_validate` raises when the messageId is empty
(the mailboxId, a `Nat` here, cannot be `None` in the embedding). -/
def Email.create (mailboxId : Nat) (messageId fromAddress subject : String)
    (receivedAt : Option Nat) (bodyText bodyHtml : Option String) (id : Nat) :
    Except InvalidOperation Email :=
  if messageId = "" then
    Except.error ⟨"create_email", "Message ID cannot be empty"⟩
  else
    Except.ok
      { id := id
        mailboxId := mailboxId
        fromAddress := fromAddress
        subject := subject
        bodyText := bodyText
        bodyHtml := bodyHtml
        receivedAt := receivedAt
        messageId := messageId
        isProcessed := false }

/-- Email.mark_as_processed: raises if already processed, else flips the
flag. -/
def Email.markAsProcessed (e : Email) : Option InvalidOperation × Email :=
  if e.isProcessed then
    (some ⟨"mark_as_processed", "Email has already been processed"⟩, e)
  else
    (none, { e with isProcessed := true })

/-- Email.has_text_body: bodyText is not None and non-empty. -/
def Email.hasTextBody (e : Email) : Bool :=
  match e.bodyText with
  | some t => t.length > 0
  | none => false

/-- Email.has_html_body: bodyHtml is not None and non-empty. -/
def Email.hasHtmlBody (e : Email) : Bool :=
  match e.bodyHtml with
  | some t => t.length > 0
  | none => false

/-- Email.body: prefers bodyText, falls back to bodyHtml, else empty. -/
def Email.body (e : Email) : String :=
  if e.hasTextBody then e.bodyText.getD ""
  else if e.hasHtmlBody then e.bodyHtml.getD ""
  else ""

/-- ExtractionResult value object (domain/ai/value_objects).  The float
`confidence` field is never read by any code a claim refers to and is
omitted (floating point is outside the embedding). -/
structure ExtractionResult where
  type : ExtractionType
  code : Option String
  link : Option String
  backupLink : Option String
  rawResponse : Option String
  deriving DecidableEq, Repr

/-- Python truthiness-based `a or b` on `Optional[str]`: `None` and the
empty string are falsy. -/
def pyStrOr : Option String → Option String → Option String
  | some a, b => if a.length > 0 then some a else b
  | none, b => b

/-- ExtractionResult.is_successful: type is not UNKNOWN and code or link is
not None (an `is not None` test, not a truthiness test). -/
def ExtractionResult.isSuccessful (r : ExtractionResult) : Bool :=
  r.type ≠ ExtractionType.unknown && (r.code ≠ none || r.link ≠ none)

/-- ExtractionResult.value: `self.code or self.link` (Python truthiness). -/
def ExtractionResult.value (r : ExtractionResult) : Option String :=
  pyStrOr r.code r.link

/-- The ExtractionResult built by `unified_extract_from_email` when the
email body is empty. -/
def emptyBodyResult : ExtractionResult :=
  { type := ExtractionType.unknown
    code := none
    link := none
    backupLink := none
    rawResponse := some "Empty email body" }

/-- AiExtractionService._mark_processed_if_needed: marks only when asked
and not already processed; a raise from mark_as_processed is caught and
logged (unreachable behind the guard). -/
def markProcessedIfNeeded (email : Email) (markAsProcessed : Bool) : Email :=
  if markAsProcessed && !email.isProcessed then
    (email.markAsProcessed).2
  else
    email

/-- AiExtractionService.unified_extract_from_email, with the black-box
LLM extractor passed in as `extract`.  An empty body short-circuits with
`emptyBodyResult` and — notably — skips `_mark_processed_if_needed`.
Returns the result together with the (possibly marked) email. -/
def unifiedExtractFromEmail (extract : String → ExtractionResult)
    (email : Email) (markAsProcessed : Bool) : ExtractionResult × Email :=
  let content := email.body
  if content.length = 0 then
    (emptyBodyResult, email)
  else
    let result := extract content
    (result, markProcessedIfNeeded email markAsProcessed)

/-- The persistent stores behind the three repository interfaces.  Rows are
kept in lists; primary-key ids are unique in the database, which theorems
assume through explicit `Nodup` hypotheses where they need it. -/
structure Store where
  mailboxes : List MailboxAccount
  requests : List WaitRequest
  emails : List Email
  deriving DecidableEq, Repr

/-- MailboxAccountRepository.get_by_id. -/
def getMailboxById (s : Store) (mailboxId : Nat) : Option MailboxAccount :=
  s.mailboxes.find? (fun m => m.id == mailboxId)

/-- WaitRequestRepository.get_by_id. -/
def getWaitRequestById (s : Store) (requestId : Nat) : Option WaitRequest :=
  s.requests.find? (fun r => r.id == requestId)

/-- The rows the pending-request queries filter on: email address matches
and status is PENDING. -/
def pendingFor (s : Store) (email : String) : List WaitRequest :=
  s.requests.filter
    (fun r => r.email == email && r.status == WaitRequestStatus.pending)

/-- WaitRequestRepository.get_pending_by_email: a `.first()` with no
order_by — some pending row for the address, here the first stored one. -/
def getPendingByEmail (s : Store) (email : String) : Option WaitRequest :=
  (pendingFor s email).head?

/-- WaitRequestRepository.get_all_pending_by_email: all pending rows for
the address, ordered by created_at ascending. -/
def getAllPendingByEmail (s : Store) (email : String) : List WaitRequest :=
  List.insertionSort (fun a b => a.createdAt ≤ b.createdAt) (pendingFor s email)

/-- Repository `update`: the row with the entity's primary id is replaced
by the entity (ids are unique primary keys). -/
def updateWaitRequest (s : Store) (r : WaitRequest) : Store :=
  { s with requests := s.requests.map (fun x => if x.id == r.id then r else x) }

/-- EmailRepository.update. -/
def updateEmail (s : Store) (e : Email) : Store :=
  { s with emails := s.emails.map (fun x => if x.id == e.id then e else x) }

/-- MailboxAccountRepository.update. -/
def updateMailbox (s : Store) (m : MailboxAccount) : Store :=
  { s with mailboxes := s.mailboxes.map (fun x => if x.id == m.id then m else x) }

/-- Python substring test `needle in haystack`. -/
def strContains (haystack needle : String) : Bool :=
  decide (needle.toList <:+: haystack.toList)

/-- Python `s.startswith(pre)` (character-level, kernel-evaluable in
contrast to String.startsWith). -/
def strStartsWith (s pre : String) : Bool :=
  decide (pre.toList <+: s.toList)

/-- Python `s.lower()` (character-level). -/
def strToLower (s : String) : String :=
  ⟨s.toList.map Char.toLower⟩

/-- The smart-match test of `_smart_match`: the lowercased serviceName
occurs in the lowercased fromAddress or subject of the email. -/
def smartMatches (r : WaitRequest) (email : Email) : Bool :=
  strContains (strToLower email.fromAddress) (strToLower r.serviceName) ||
    strContains (strToLower email.subject) (strToLower r.serviceName)

/-- Python `min(list, key=lambda r: r.created_at)`: the first element with
the minimal createdAt; `none` on the empty list (where Python raises). -/
def minByCreatedAt : List WaitRequest → Option WaitRequest
  | [] => none
  | r :: rs =>
      some (rs.foldl (fun best x => if x.createdAt < best.createdAt then x else best) r)

/-- MailRequestMatchingService._smart_match: first request (in the given
created_at-ascending order) whose serviceName occurs in the sender or the
subject; FIFO fallback to the earliest-created request otherwise. -/
def smartMatch (pendingRequests : List WaitRequest) (email : Email) :
    Option WaitRequest :=
  match pendingRequests.find? (fun r => smartMatches r email) with
  | some r => some r
  | none => minByCreatedAt pendingRequests

/-- MailRequestMatchingService._find_matching_request. -/
def findMatchingRequest (s : Store) (emailAddress : String) (email : Email) :
    Option WaitRequest :=
  match getPendingByEmail s emailAddress with
  | some singleRequest =>
      let allPending := getAllPendingByEmail s emailAddress
      if allPending.length == 1 then some singleRequest
      else smartMatch allPending email
  | none => none

/-- WebhookResult (domain/verification/services/webhook_client.py). -/
structure WebhookResult where
  success : Bool
  statusCode : Option Int
  retryCount : Nat
  errorMessage : String
  deriving DecidableEq, Repr

/-- WebhookPayload value object, as built by
WebhookNotificationService.notify.  `received_at` keeps the email's
optional timestamp. -/
structure WebhookPayload where
  requestId : Nat
  type : String
  value : Option String
  email : String
  service : String
  receivedAt : Option Nat
  deriving DecidableEq, Repr

/-- One webhook HTTP attempt as seen by HttpWebhookClient.send: a response
with a status code, a timeout, or a transport error. -/
inductive HttpOutcome where
  | response (statusCode : Int)
  | timeout
  | requestError (message : String)
  deriving DecidableEq, Repr

/-- Whether an attempt outcome is a 2xx response. -/
def HttpOutcome.is2xx : HttpOutcome → Bool
  | .response c => decide (200 ≤ c ∧ c < 300)
  | .timeout => false
  | .requestError _ => false

/-- The `last_error` string an attempt leaves behind. -/
def HttpOutcome.errorText : HttpOutcome → String
  | .response c => s!"HTTP {c}"
  | .timeout => "Request timeout"
  | .requestError m => s!"Request error: {m}"

/-- The `last_status_code` update of an attempt: only a real response
overwrites it. -/
def HttpOutcome.statusUpdate : HttpOutcome → Option Int → Option Int
  | .response c, _ => some c
  | .timeout, prev => prev
  | .requestError _, prev => prev

/-- HttpWebhookClient.RETRY_INTERVALS (seconds; the sleeps themselves are
timing and not modelled). -/
def RETRY_INTERVALS : List Nat := [1, 5, 15]

/-- The retry loop of HttpWebhookClient.send over the remaining attempt
indices, carrying `last_status_code` and `last_error`.  Stops at the first
2xx with `retry_count = attempt`; exhaustion yields failure with
`retry_count = total_attempts - 1` and the last error. -/
def sendGo (responses : Nat → HttpOutcome) :
    List Nat → Option Int → String → WebhookResult
  | [], lastStatus, lastError =>
      { success := false
        statusCode := lastStatus
        retryCount := RETRY_INTERVALS.length
        errorMessage := lastError }
  | attempt :: rest, lastStatus, _lastError =>
      let outcome := responses attempt
      if outcome.is2xx then
        { success := true
          statusCode := outcome.statusUpdate lastStatus
          retryCount := attempt
          errorMessage := "" }
      else
        sendGo responses rest (outcome.statusUpdate lastStatus) outcome.errorText

/-- HttpWebhookClient.send: one immediate attempt plus one retry per entry
of RETRY_INTERVALS (4 attempts total), attempt `i` observing
`responses i`. -/
def httpWebhookSend (responses : Nat → HttpOutcome) : WebhookResult :=
  sendGo responses (List.range (RETRY_INTERVALS.length + 1)) none ""

/-- NotificationResult (webhook_notification_service.py). -/
structure NotificationResult where
  success : Bool
  retryCount : Nat
  errorMessage : String
  deriving DecidableEq, Repr

/-- The `_release_mailbox` helper shared (verbatim logic) by
WebhookNotificationService and CancelWaitRequestHandler: load the mailbox,
return silently when absent or already available, release and persist
otherwise; a release exception is caught and logged. -/
def releaseMailboxById (s : Store) (mailboxId : Nat) : Store :=
  match getMailboxById s mailboxId with
  | none => s
  | some mailbox =>
      if !mailbox.isOccupied then s
      else
        match mailbox.release with
        | (some _, _) => s
        | (none, released) => updateMailbox s released

/-- WebhookNotificationService.notify, with the webhook client passed in
as `send`.  Returns the notification result, the wait request as the
caller now sees it (it is mutated in place on the failure path), and the
updated store. -/
def notify (send : String → WebhookPayload → WebhookResult) (s : Store)
    (waitRequest : WaitRequest) (extractionType : String)
    (extractionValue : Option String) (receivedAt : Option Nat) :
    NotificationResult × WaitRequest × Store :=
  let payload : WebhookPayload :=
    { requestId := waitRequest.id
      type := extractionType
      value := extractionValue
      email := waitRequest.email
      service := waitRequest.serviceName
      receivedAt := receivedAt }
  let result := send waitRequest.callbackUrl payload
  if result.success then
    let s := releaseMailboxById s waitRequest.mailboxId
    ({ success := true, retryCount := result.retryCount, errorMessage := "" },
      waitRequest, s)
  else
    let (waitRequest, s) :=
      if waitRequest.isPending then
        let failed := (waitRequest.fail
          (some ("Webhook failed: " ++ result.errorMessage))).2
        (failed, updateWaitRequest s failed)
      else
        (waitRequest, s)
    let s := releaseMailboxById s waitRequest.mailboxId
    ({ success := false
       retryCount := result.retryCount
       errorMessage := result.errorMessage }, waitRequest, s)

/-- MatchResult (mail_request_matching_service.py). -/
structure MatchResult where
  matched : Bool
  waitRequestId : Option Nat
  extractionType : Option String
  extractionValue : Option String
  callbackSuccess : Option Bool
  callbackError : Option String
  message : String
  deriving DecidableEq, Repr

/-- MailRequestMatchingService.process_email.  `extract` is the black-box
extractor, `webhookSend` the optional webhook client.  The only uncaught
raise on this path is `WaitRequest.complete` (unreachable: the matched
request is pending); it surfaces as `Except.error`. -/
def processEmail (extract : String → ExtractionResult)
    (webhookSend : Option (String → WebhookPayload → WebhookResult))
    (s : Store) (email : Email) (now : Nat) :
    Except InvalidStateTransition (MatchResult × Store) :=
  match getMailboxById s email.mailboxId with
  | none =>
      Except.ok
        ({ matched := false, waitRequestId := none, extractionType := none
           extractionValue := none, callbackSuccess := none
           callbackError := none, message := "Mailbox not found" }, s)
  | some mailbox =>
      match findMatchingRequest s mailbox.username email with
      | none =>
          Except.ok
            ({ matched := false, waitRequestId := none, extractionType := none
               extractionValue := none, callbackSuccess := none
               callbackError := none
               message := "No pending request for " ++ mailbox.username }, s)
      | some waitRequest =>
          let (extractionResult, email) :=
            unifiedExtractFromEmail extract email true
          let s := updateEmail s email
          if extractionResult.isSuccessful then
            match waitRequest.complete extractionResult.value now with
            | (some e, _) => Except.error e
            | (none, completed) =>
                let s := updateWaitRequest s completed
                match webhookSend with
                | some send =>
                    let (notification, _, s) :=
                      notify send s completed extractionResult.type.value
                        extractionResult.value email.receivedAt
                    Except.ok
                      ({ matched := true
                         waitRequestId := some completed.id
                         extractionType := some extractionResult.type.value
                         extractionValue := extractionResult.value
                         callbackSuccess := some notification.success
                         callbackError :=
                           if notification.success then none
                           else some notification.errorMessage
                         message :=
                           if notification.success then
                             "Successfully matched, extracted, and notified"
                           else "Successfully matched and extracted" }, s)
                | none =>
                    Except.ok
                      ({ matched := true
                         waitRequestId := some completed.id
                         extractionType := some extractionResult.type.value
                         extractionValue := extractionResult.value
                         callbackSuccess := none
                         callbackError := none
                         message := "Successfully matched and extracted" }, s)
          else
            Except.ok
              ({ matched := true
                 waitRequestId := some waitRequest.id
                 extractionType := none
                 extractionValue := none
                 callbackSuccess := none
                 callbackError := none
                 message := "Matched but extraction failed" }, s)

/-- CancelWaitRequestResult (application/commands/verification). -/
structure CancelWaitRequestResult where
  success : Bool
  message : String
  errorCode : Option String
  currentStatus : Option String
  deriving DecidableEq, Repr

/-- CancelWaitRequestHandler.handle: load → reject non-pending with
ALREADY_TERMINAL (reporting the current status, mutating nothing) →
cancel, persist, best-effort release of the mailbox. -/
def cancelWaitRequestHandle (s : Store) (requestId : Nat) :
    CancelWaitRequestResult × Store :=
  match getWaitRequestById s requestId with
  | none =>
      ({ success := false, message := "Request not found"
         errorCode := some "NOT_FOUND", currentStatus := none }, s)
  | some waitRequest =>
      if !waitRequest.isPending then
        ({ success := false, message := "Request cannot be cancelled"
           errorCode := some "ALREADY_TERMINAL"
           currentStatus := some waitRequest.status.value }, s)
      else
        let cancelled := (waitRequest.cancel).2
        let s := updateWaitRequest s cancelled
        let s := releaseMailboxById s cancelled.mailboxId
        ({ success := true, message := "Wait request cancelled successfully"
           errorCode := none, currentStatus := none }, s)

/-- The `data` dictionary of a completed CodeResult
(application/handlers/verification/get_code_handler.py); `received_at`
reports the request's completedAt. -/
structure CodeData where
  requestId : Nat
  type : String
  value : Option String
  email : String
  service : String
  receivedAt : Option Nat
  deriving DecidableEq, Repr

/-- CodeResult (get_code_handler.py). -/
structure CodeResult where
  found : Bool
  status : String
  data : Option CodeData
  message : Option String
  deriving DecidableEq, Repr

/-- GetCodeHandler._determine_extraction_type: recompute the payload type
from the stored value — "code" for None, "link" for values starting with
http:// or https://, "code" otherwise. -/
def determineExtractionType (value : Option String) : String :=
  match value with
  | none => "code"
  | some v =>
      if strStartsWith v "http://" || strStartsWith v "https://" then "link"
      else "code"

/-- GetCodeHandler.handle: a pure read of the wait-request store. -/
def getCodeHandle (s : Store) (requestId : Nat) : CodeResult :=
  match getWaitRequestById s requestId with
  | none => { found := false, status := "not_found", data := none, message := none }
  | some waitRequest =>
      if waitRequest.isCompleted then
        { found := true
          status := "completed"
          data := some
            { requestId := waitRequest.id
              type := determineExtractionType waitRequest.extractionResult
              value := waitRequest.extractionResult
              email := waitRequest.email
              service := waitRequest.serviceName
              receivedAt := waitRequest.completedAt }
          message := none }
      else if waitRequest.isPending then
        { found := true, status := "pending", data := none
          message := some "正在等待验证邮件" }
      else
        { found := true, status := waitRequest.status.value, data := none
          message := waitRequest.failureReason }

/-- ParsedEmail as delivered by the external IMAP fetcher
(content.text / content.html flattened into the two body fields). -/
structure ParsedEmail where
  messageId : String
  fromAddress : String
  subject : String
  receivedAt : Option Nat
  bodyText : Option String
  bodyHtml : Option String
  deriving DecidableEq, Repr

/-- EmailRepository.exists_by_message_id: a count on rows with the given
message_id being positive. -/
def existsByMessageId (emails : List Email) (messageId : String) : Bool :=
  (emails.filter (fun e => e.messageId == messageId)).length > 0

/-- AsyncMailPollingService._convert_to_email: Email.create from the
parsed message, defaulting a missing received_at to now. -/
def convertToEmail (mailbox : MailboxAccount) (parsed : ParsedEmail)
    (now : Nat) (freshId : Nat) : Except InvalidOperation Email :=
  Email.create mailbox.id parsed.messageId parsed.fromAddress parsed.subject
    (some (parsed.receivedAt.getD now)) parsed.bodyText parsed.bodyHtml freshId

/-- The per-message body of AsyncMailPollingService._poll_single_mailbox:
skip when the message_id already exists, otherwise convert and add; any
per-message exception (here: Email.create on an empty message_id) is
caught and the batch continues. -/
def pollSaveOne (mailbox : MailboxAccount) (now : Nat)
    (st : Nat × List Email) (parsed : ParsedEmail) : Nat × List Email :=
  let (savedCount, emails) := st
  if existsByMessageId emails parsed.messageId then
    (savedCount, emails)
  else
    match convertToEmail mailbox parsed now (now + emails.length) with
    | Except.error _ => (savedCount, emails)
    | Except.ok email => (savedCount + 1, emails ++ [email])

/-- AsyncMailPollingService._poll_single_mailbox restricted to its storage
effect: fold a fetched batch over the email store, returning the number of
saved emails and the new store contents. -/
def pollSingleMailbox (mailbox : MailboxAccount) (emails : List Email)
    (parsedEmails : List ParsedEmail) (now : Nat) : Nat × List Email :=
  parsedEmails.foldl (pollSaveOne mailbox now) (0, emails)

/-! Concrete sample data used to instantiate witnesses and
counterexamples: one occupied mailbox, one pending wait request for it,
one email with a body and one with none. -/

/-- A mailbox leased to the "openai" service. -/
def sampleMailbox : MailboxAccount :=
  ⟨1, "a@x.com", MailboxType.domainCatchall, some "x.com",
    MailboxStatus.occupied, some "openai"⟩

/-- The same mailbox before being leased. -/
def sampleAvailableMailbox : MailboxAccount :=
  ⟨1, "a@x.com", MailboxType.domainCatchall, some "x.com",
    MailboxStatus.available, none⟩

/-- The pending wait request occupying `sampleMailbox`. -/
def samplePendingRequest : WaitRequest :=
  ⟨2, 1, "a@x.com", "openai", "https://consumer.example/hook",
    WaitRequestStatus.pending, none, none, none, 0⟩

/-- A completed wait request (code value stored). -/
def sampleCompletedRequest : WaitRequest :=
  { samplePendingRequest with
      status := WaitRequestStatus.completed
      completedAt := some 9
      extractionResult := some "123456" }

/-- An unprocessed email with a text body. -/
def sampleEmail : Email :=
  ⟨3, 1, "noreply@openai.com", "Your verification code",
    some "Your code is 123456", none, some 5, "<m1@mail>", false⟩

/-- An unprocessed email whose body resolves to the empty string. -/
def sampleEmptyEmail : Email :=
  ⟨4, 1, "noreply@openai.com", "Verify your account", none, none, some 6,
    "<m2@mail>", false⟩

/-- Store holding the sample mailbox, pending request and emails. -/
def sampleStore : Store :=
  ⟨[sampleMailbox], [samplePendingRequest], [sampleEmail, sampleEmptyEmail]⟩

/-- Store holding the sample mailbox and an already-completed request. -/
def sampleCompletedStore : Store :=
  ⟨[sampleMailbox], [sampleCompletedRequest], [sampleEmail]⟩

/-- An extractor that always finds the code 123456. -/
def sampleExtract : String → ExtractionResult :=
  fun _ => ⟨ExtractionType.code, some "123456", none, none, some "ok"⟩

/-- A webhook client whose every delivery fails with HTTP 500 after the
full retry schedule. -/
def sampleFailSend : String → WebhookPayload → WebhookResult :=
  fun _ _ => ⟨false, some 500, 3, "HTTP 500"⟩

end DddCore

namespace DddCore

/-- C1: complete, cancel and fail succeed exactly from Pending; from any
terminal state each raises InvalidStateTransition and leaves every field
of the request unchanged. -/
theorem waitRequest_terminal_guard (r : WaitRequest) (v reason : Option String)
    (now : Nat) :
    ((r.complete v now).1 = none ↔ r.status = WaitRequestStatus.pending) ∧
    ((r.cancel).1 = none ↔ r.status = WaitRequestStatus.pending) ∧
    ((r.fail reason).1 = none ↔ r.status = WaitRequestStatus.pending) ∧
    (r.status ≠ WaitRequestStatus.pending →
      (r.complete v now).2 = r ∧ (r.cancel).2 = r ∧ (r.fail reason).2 = r ∧
      (∃ e, (r.complete v now).1 = some e) ∧
      (∃ e, (r.cancel).1 = some e) ∧
      (∃ e, (r.fail reason).1 = some e)) := by
  unfold WaitRequest.complete WaitRequest.cancel WaitRequest.fail
  by_cases h : r.status = WaitRequestStatus.pending <;> simp [h]

/-- Witness for C1 at concrete inputs: a pending request completes, and a
completed request rejects cancel while staying unchanged. -/
theorem waitRequest_terminal_guard_witness :
    ((samplePendingRequest.complete (some "123456") 9).1 = none) ∧
    ((sampleCompletedRequest.cancel).2 = sampleCompletedRequest) ∧
    (∃ e, (sampleCompletedRequest.cancel).1 = some e) := by
  refine ⟨?_, ?_, ?_⟩
  · exact (waitRequest_terminal_guard samplePendingRequest (some "123456")
      none 9).1.mpr (by decide)
  · exact ((waitRequest_terminal_guard sampleCompletedRequest none none
      0).2.2.2 (by decide)).2.1
  · exact (((waitRequest_terminal_guard sampleCompletedRequest none none
      0).2.2.2 (by decide)).2.2.2).2.1

/-- C5: occupy fails (AlreadyOccupied) exactly when the lease is already
Occupied, release fails (NotOccupied) exactly when it is already
Available, and in both failure cases the lease is left unchanged. -/
theorem mailbox_occupy_release_guard (m : MailboxAccount) (svc : String) :
    ((∃ e, (m.occupy svc).1 = some e) ↔ m.status = MailboxStatus.occupied) ∧
    ((∃ e, (m.release).1 = some e) ↔ m.status = MailboxStatus.available) ∧
    (m.status = MailboxStatus.occupied → (m.occupy svc).2 = m) ∧
    (m.status = MailboxStatus.available → (m.release).2 = m) := by
  unfold MailboxAccount.occupy MailboxAccount.release
  cases h : m.status <;> simp [h]

/-- Witness for C5 at a concrete occupied lease. -/
theorem mailbox_occupy_release_guard_witness :
    ((∃ e, (sampleMailbox.occupy "claude").1 = some e)) ∧
    ((sampleMailbox.occupy "claude").2 = sampleMailbox) := by
  refine ⟨?_, ?_⟩
  · exact (mailbox_occupy_release_guard sampleMailbox "claude").1.mpr (by decide)
  · exact (mailbox_occupy_release_guard sampleMailbox "claude").2.2.1 (by decide)

/-- C6: occupiedByService is non-null iff status is Occupied — established
by both creation factories and preserved by every successful occupy and
release. -/
theorem mailbox_lease_invariant_preserved (u d svc : String) (i : Nat)
    (m₀ m₁ m₂ : MailboxAccount) :
    (MailboxAccount.createDomainCatchall u d i = Except.ok m₀ →
      m₀.leaseInvariant) ∧
    (MailboxAccount.createHotmail u i = Except.ok m₀ → m₀.leaseInvariant) ∧
    ((m₁.occupy svc).1 = none → (m₁.occupy svc).2.leaseInvariant) ∧
    ((m₂.release).1 = none → (m₂.release).2.leaseInvariant) := by
  unfold MailboxAccount.createDomainCatchall MailboxAccount.createHotmail
    MailboxAccount.occupy MailboxAccount.release MailboxAccount.validate
    MailboxAccount.leaseInvariant
  refine ⟨?_, ?_, ?_, ?_⟩
  · intro h
    dsimp only at h
    split at h
    · exact absurd h (by simp)
    · cases h
      simp
  · intro h
    dsimp only at h
    split at h
    · exact absurd h (by simp)
    · cases h
      simp
  · intro h
    split at h <;> simp_all
  · intro h
    split at h <;> simp_all

/-- Witness for C6: a freshly created catch-all mailbox satisfies the
invariant, and occupying it preserves the invariant. -/
theorem mailbox_lease_invariant_preserved_witness :
    (MailboxAccount.createDomainCatchall "a@x.com" "x.com" 1 =
      Except.ok sampleAvailableMailbox → sampleAvailableMailbox.leaseInvariant) ∧
    ((sampleAvailableMailbox.occupy "openai").1 = none →
      (sampleAvailableMailbox.occupy "openai").2.leaseInvariant) ∧
    MailboxAccount.createDomainCatchall "a@x.com" "x.com" 1 =
      Except.ok sampleAvailableMailbox ∧
    (sampleAvailableMailbox.occupy "openai").1 = none := by
  refine ⟨?_, ?_, rfl, rfl⟩
  · exact fun h => (mailbox_lease_invariant_preserved "a@x.com" "x.com"
      "openai" 1 sampleAvailableMailbox sampleAvailableMailbox
      sampleAvailableMailbox).1 h
  · exact fun h => (mailbox_lease_invariant_preserved "a@x.com" "x.com"
      "openai" 1 sampleAvailableMailbox sampleAvailableMailbox
      sampleAvailableMailbox).2.2.1 h

/-- C10: for a Completed request the query handler recomputes the payload
type from the stored extractionValue ("link" exactly for values starting
with http:// or https://, "code" for a missing value, "code" otherwise),
so it can disagree with the type the webhook delivered for a successful
LINK extraction whose value is not shaped like that. -/
theorem getCode_type_recomputed (s : Store) (requestId : Nat)
    (wr : WaitRequest) (hfind : getWaitRequestById s requestId = some wr)
    (hc : wr.status = WaitRequestStatus.completed) :
    (getCodeHandle s requestId).status = "completed" ∧
    (getCodeHandle s requestId).data = some
      { requestId := wr.id
        type := determineExtractionType wr.extractionResult
        value := wr.extractionResult
        email := wr.email
        service := wr.serviceName
        receivedAt := wr.completedAt } ∧
    determineExtractionType none = "code" ∧
    (∀ v : String, determineExtractionType (some v) = "link" ↔
      (strStartsWith v "http://" || strStartsWith v "https://") = true) ∧
    (∀ v : String, determineExtractionType (some v) = "code" ↔
      (strStartsWith v "http://" || strStartsWith v "https://") = false) ∧
    (∃ er : ExtractionResult, er.isSuccessful = true ∧
      determineExtractionType er.value ≠ er.type.value) := by
  refine ⟨?_, ?_, rfl, ?_, ?_, ?_⟩
  · simp [getCodeHandle, hfind, WaitRequest.isCompleted, hc]
  · simp [getCodeHandle, hfind, WaitRequest.isCompleted, hc]
  · intro v
    unfold determineExtractionType
    by_cases h : (strStartsWith v "http://" || strStartsWith v "https://") = true <;>
      simp [h]
  · intro v
    unfold determineExtractionType
    by_cases h : (strStartsWith v "http://" || strStartsWith v "https://") = true <;>
      simp [h]
  · exact ⟨⟨ExtractionType.link, none, some "example.com/verify", none, none⟩,
      by decide, by decide⟩

/-- Witness for C10 at the sample completed request (extractionValue
"123456", reported as type "code"). -/
theorem getCode_type_recomputed_witness :
    (getCodeHandle sampleCompletedStore 2).status = "completed" ∧
    (getCodeHandle sampleCompletedStore 2).data = some
      { requestId := sampleCompletedRequest.id
        type := determineExtractionType sampleCompletedRequest.extractionResult
        value := sampleCompletedRequest.extractionResult
        email := sampleCompletedRequest.email
        service := sampleCompletedRequest.serviceName
        receivedAt := sampleCompletedRequest.completedAt } := by
  have h := getCode_type_recomputed sampleCompletedStore 2
    sampleCompletedRequest (by decide) (by decide)
  exact ⟨h.1, h.2.1⟩

/-- Unfolding equation for one retry-loop step. -/
theorem sendGo_cons (responses : Nat → HttpOutcome) (a : Nat) (rest : List Nat)
    (ls : Option Int) (le : String) :
    sendGo responses (a :: rest) ls le =
      if (responses a).is2xx then
        { success := true
          statusCode := (responses a).statusUpdate ls
          retryCount := a
          errorMessage := "" }
      else
        sendGo responses rest ((responses a).statusUpdate ls)
          (responses a).errorText := rfl

/-- The retry loop only reads the outcomes of the attempts it makes. -/
theorem sendGo_congr (f g : Nat → HttpOutcome) :
    ∀ (attempts : List Nat) (ls : Option Int) (le : String),
      (∀ a ∈ attempts, g a = f a) →
      sendGo g attempts ls le = sendGo f attempts ls le := by
  intro attempts
  induction attempts with
  | nil => intro ls le _; rfl
  | cons b rest ih =>
      intro ls le h
      rw [sendGo_cons, sendGo_cons, h b (List.mem_cons_self b rest)]
      split
      · rfl
      · exact ih _ _ (fun a ha => h a (List.mem_cons_of_mem b ha))

/-- If some attempt in the list is the first 2xx according to `find?`, the
loop succeeds with that attempt index as retry count. -/
theorem sendGo_found (responses : Nat → HttpOutcome) :
    ∀ (attempts : List Nat) (ls : Option Int) (le : String) (a : Nat),
      attempts.find? (fun x => (responses x).is2xx) = some a →
      (sendGo responses attempts ls le).success = true ∧
      (sendGo responses attempts ls le).retryCount = a := by
  intro attempts
  induction attempts with
  | nil => intro ls le a h; simp at h
  | cons b rest ih =>
      intro ls le a h
      rw [List.find?_cons] at h
      rw [sendGo_cons]
      by_cases hb : (responses b).is2xx = true
      · simp [hb] at h ⊢
        omega
      · simp [hb] at h ⊢
        exact ih _ _ a h

/-- If no attempt in the list is 2xx, the loop fails with
`retry_count = len(RETRY_INTERVALS)` and the last error it saw. -/
theorem sendGo_exhausted (responses : Nat → HttpOutcome) :
    ∀ (attempts : List Nat) (ls : Option Int) (le : String),
      attempts.find? (fun x => (responses x).is2xx) = none →
      (sendGo responses attempts ls le).success = false ∧
      (sendGo responses attempts ls le).retryCount = RETRY_INTERVALS.length ∧
      (sendGo responses attempts ls le).errorMessage =
        (match attempts.getLast? with
          | some a => (responses a).errorText
          | none => le) := by
  intro attempts
  induction attempts with
  | nil => intro ls le _; exact ⟨rfl, rfl, rfl⟩
  | cons b rest ih =>
      intro ls le h
      rw [List.find?_cons] at h
      by_cases hb : (responses b).is2xx = true
      · simp [hb] at h
      · have hbf : (responses b).is2xx = false := by simpa using hb
        rw [sendGo_cons, hbf]
        simp only [Bool.false_eq_true, if_false]
        have step := ih ((responses b).statusUpdate ls) (responses b).errorText
          (by simpa [hb] using h)
        refine ⟨step.1, step.2.1, ?_⟩
        rw [step.2.2]
        cases hrest : rest with
        | nil => simp
        | cons c cs =>
            subst hrest
            have h2 : (b :: c :: cs).getLast? = (c :: cs).getLast? := by
              simp [List.getLast?]
            rw [h2]
            cases hl : (c :: cs).getLast? with
            | none => simp [List.getLast?] at hl
            | some a => rfl

/-- C8: at most 4 attempts are made (the result depends only on the first
four outcomes); success is reported exactly when some of the four attempts
gets a 2xx, stopping at the first such attempt with retryCount equal to
the number of failed attempts before it; after 4 non-2xx outcomes the
result is failure with retryCount 3 and the last attempt's error text. -/
theorem httpWebhookSend_retry_spec (responses : Nat → HttpOutcome) :
    (∀ g : Nat → HttpOutcome, (∀ i, i < 4 → g i = responses i) →
      httpWebhookSend g = httpWebhookSend responses) ∧
    ((httpWebhookSend responses).success = true ↔
      ∃ i, i < 4 ∧ (responses i).is2xx = true) ∧
    (∀ i, i < 4 → (responses i).is2xx = true →
      (∀ j, j < i → (responses j).is2xx = false) →
      (httpWebhookSend responses).success = true ∧
      (httpWebhookSend responses).retryCount = i) ∧
    ((∀ i, i < 4 → (responses i).is2xx = false) →
      (httpWebhookSend responses).success = false ∧
      (httpWebhookSend responses).retryCount = 3 ∧
      (httpWebhookSend responses).errorMessage = (responses 3).errorText) := by
  have hrange : List.range (RETRY_INTERVALS.length + 1) = [0, 1, 2, 3] := by
    decide
  have hsend : ∀ g : Nat → HttpOutcome,
      httpWebhookSend g = sendGo g [0, 1, 2, 3] none "" := by
    intro g
    unfold httpWebhookSend
    rw [hrange]
  refine ⟨?_, ?_, ?_, ?_⟩
  · intro g hg
    rw [hsend g, hsend responses]
    exact sendGo_congr responses g [0, 1, 2, 3] none ""
      (fun a ha => hg a (by
        simp at ha
        omega))
  · rw [hsend responses]
    constructor
    · intro hs
      cases hf : List.find? (fun x => (responses x).is2xx) [0, 1, 2, 3] with
      | none =>
          have := (sendGo_exhausted responses [0, 1, 2, 3] none "" hf).1
          rw [this] at hs
          exact absurd hs (by simp)
      | some a =>
          have ha := List.mem_of_find?_eq_some hf
          have hpa := List.find?_some hf
          refine ⟨a, ?_, hpa⟩
          simp at ha
          omega
    · rintro ⟨i, hi4, h2xx⟩
      cases hf : List.find? (fun x => (responses x).is2xx) [0, 1, 2, 3] with
      | none =>
          have := List.find?_eq_none.mp hf i (by
            simp
            omega)
          simp [h2xx] at this
      | some a => exact (sendGo_found responses [0, 1, 2, 3] none "" a hf).1
  · intro i hi4 h2xx hfirst
    rw [hsend responses]
    have hf : List.find? (fun x => (responses x).is2xx) [0, 1, 2, 3] = some i := by
      interval_cases i
      · simp [List.find?, h2xx]
      · have h0 := hfirst 0 (by omega)
        simp [List.find?, h0, h2xx]
      · have h0 := hfirst 0 (by omega)
        have h1 := hfirst 1 (by omega)
        simp [List.find?, h0, h1, h2xx]
      · have h0 := hfirst 0 (by omega)
        have h1 := hfirst 1 (by omega)
        have h2 := hfirst 2 (by omega)
        simp [List.find?, h0, h1, h2, h2xx]
    exact sendGo_found responses [0, 1, 2, 3] none "" i hf
  · intro hall
    rw [hsend responses]
    have hf : List.find? (fun x => (responses x).is2xx) [0, 1, 2, 3] = none := by
      apply List.find?_eq_none.mpr
      intro x hx
      have : x < 4 := by
        simp at hx
        omega
      simp [hall x this]
    have := sendGo_exhausted responses [0, 1, 2, 3] none "" hf
    exact ⟨this.1, this.2.1, this.2.2⟩

/-- The spec's retry scenario: three 500s then a 200. -/
def sampleResponses : Nat → HttpOutcome :=
  fun i => if i < 3 then HttpOutcome.response 500 else HttpOutcome.response 200

/-- Witness for C8: an endpoint failing three times and then returning 200
yields success with retryCount 3. -/
theorem httpWebhookSend_retry_spec_witness :
    (httpWebhookSend sampleResponses).success = true ∧
    (httpWebhookSend sampleResponses).retryCount = 3 := by
  exact (httpWebhookSend_retry_spec sampleResponses).2.2.1 3 (by omega)
    (by decide)
    (by
      intro j hj
      interval_cases j <;> decide)

/-- The Python `min(_, key=created_at)` fold keeps an element of the
candidate list. -/
theorem foldlMinBy_mem (xs : List WaitRequest) :
    ∀ a : WaitRequest,
      xs.foldl (fun best x => if x.createdAt < best.createdAt then x else best) a
        ∈ a :: xs := by
  induction xs with
  | nil => intro a; simp
  | cons y ys ih =>
      intro a
      rw [List.foldl_cons]
      have h := ih (if y.createdAt < a.createdAt then y else a)
      rcases List.mem_cons.mp h with h1 | h1
      · rw [h1]
        split
        · exact List.mem_cons_of_mem a (List.mem_cons_self y ys)
        · exact List.mem_cons_self a (y :: ys)
      · exact List.mem_cons_of_mem a (List.mem_cons_of_mem y h1)

/-- The `min` fold result is a lower bound for the seed and the list. -/
theorem foldlMinBy_le (xs : List WaitRequest) :
    ∀ a : WaitRequest,
      (xs.foldl (fun best x => if x.createdAt < best.createdAt then x else best)
          a).createdAt ≤ a.createdAt ∧
      ∀ x ∈ xs,
        (xs.foldl (fun best x => if x.createdAt < best.createdAt then x else best)
            a).createdAt ≤ x.createdAt := by
  induction xs with
  | nil => intro a; simp
  | cons y ys ih =>
      intro a
      rw [List.foldl_cons]
      have h := ih (if y.createdAt < a.createdAt then y else a)
      have hy : (if y.createdAt < a.createdAt then y else a).createdAt ≤
          a.createdAt ∧
          (if y.createdAt < a.createdAt then y else a).createdAt ≤
          y.createdAt := by
        split <;> omega
      refine ⟨le_trans h.1 hy.1, ?_⟩
      intro x hx
      rcases List.mem_cons.mp hx with h1 | h1
      · rw [h1]
        exact le_trans h.1 hy.2
      · exact h.2 x h1

/-- The FIFO fallback picks a member whose createdAt is minimal. -/
theorem minByCreatedAt_spec (l : List WaitRequest) (h : l ≠ []) :
    ∃ m, minByCreatedAt l = some m ∧ m ∈ l ∧
      ∀ x ∈ l, m.createdAt ≤ x.createdAt := by
  cases l with
  | nil => exact absurd rfl h
  | cons r rs =>
      refine ⟨_, rfl, foldlMinBy_mem rs r, ?_⟩
      intro x hx
      have hle := foldlMinBy_le rs r
      rcases List.mem_cons.mp hx with h1 | h1
      · rw [h1]; exact hle.1
      · exact hle.2 x h1

/-- Behaviour of smart match on a non-empty candidate list: it returns a
candidate; a smart-matching candidate when one exists, otherwise one with
the minimal createdAt. -/
theorem smartMatch_spec (l : List WaitRequest) (email : Email) (h : l ≠ []) :
    ∃ r, smartMatch l email = some r ∧ r ∈ l ∧
      ((∃ x ∈ l, smartMatches x email = true) → smartMatches r email = true) ∧
      ((∀ x ∈ l, smartMatches x email = false) →
        ∀ x ∈ l, r.createdAt ≤ x.createdAt) := by
  unfold smartMatch
  cases hf : l.find? (fun r => smartMatches r email) with
  | some r =>
      have hp : smartMatches r email = true := by
        simpa using List.find?_some hf
      refine ⟨r, rfl, List.mem_of_find?_eq_some hf, fun _ => hp,
        fun hall => ?_⟩
      have hc := hall r (List.mem_of_find?_eq_some hf)
      rw [hp] at hc
      exact absurd hc (by simp)
  | none =>
      obtain ⟨m, hm, hmem, hmin⟩ := minByCreatedAt_spec l h
      refine ⟨m, by rw [hm], hmem, ?_, fun _ => hmin⟩
      rintro ⟨x, hx, hsm⟩
      have := List.find?_eq_none.mp hf x hx
      simp [hsm] at this

/-- get_all_pending_by_email is the pending rows reordered. -/
theorem getAllPendingByEmail_perm (s : Store) (addr : String) :
    (getAllPendingByEmail s addr).Perm (pendingFor s addr) :=
  List.perm_insertionSort _ _

/-- C4: with zero pending requests for the address resolution reports no
match; with exactly one it selects it; with several it selects a pending
request whose serviceName occurs case-insensitively in the email's sender
or subject, falling back to the earliest-created pending request when none
matches. -/
theorem findMatchingRequest_resolution (s : Store) (addr : String)
    (email : Email) :
    (pendingFor s addr = [] → findMatchingRequest s addr email = none) ∧
    (∀ r, pendingFor s addr = [r] → findMatchingRequest s addr email = some r) ∧
    (2 ≤ (pendingFor s addr).length →
      ∃ r, findMatchingRequest s addr email = some r ∧
        r ∈ pendingFor s addr ∧
        ((∃ x ∈ pendingFor s addr, smartMatches x email = true) →
          smartMatches r email = true) ∧
        ((∀ x ∈ pendingFor s addr, smartMatches x email = false) →
          ∀ x ∈ pendingFor s addr, r.createdAt ≤ x.createdAt)) := by
  refine ⟨?_, ?_, ?_⟩
  · intro h
    unfold findMatchingRequest getPendingByEmail
    rw [h]
    rfl
  · intro r h
    unfold findMatchingRequest getPendingByEmail getAllPendingByEmail
    rw [h]
    rfl
  · intro h2
    have hperm := getAllPendingByEmail_perm s addr
    have hlen : (getAllPendingByEmail s addr).length =
        (pendingFor s addr).length := hperm.length_eq
    have hlne : getAllPendingByEmail s addr ≠ [] := by
      intro hh
      have h0 : (pendingFor s addr).length = 0 := by
        rw [← hlen, hh]
        rfl
      omega
    obtain ⟨r, hsm, hrmem, hmatch, hmin⟩ :=
      smartMatch_spec (getAllPendingByEmail s addr) email hlne
    have hl1 : ((getAllPendingByEmail s addr).length == 1) = false := by
      have hne : (getAllPendingByEmail s addr).length ≠ 1 := by
        rw [hlen]
        omega
      simpa using hne
    cases hpf : pendingFor s addr with
    | nil => rw [hpf] at h2; simp at h2
    | cons r₀ rest =>
        have hres : findMatchingRequest s addr email = some r := by
          have hstep : findMatchingRequest s addr email =
              smartMatch (getAllPendingByEmail s addr) email := by
            unfold findMatchingRequest getPendingByEmail
            rw [hpf]
            simp only [List.head?_cons]
            rw [hl1]
            simp
          rw [hstep, hsm]
        refine ⟨r, hres, ?_, ?_, ?_⟩
        · have hr : r ∈ pendingFor s addr := hperm.mem_iff.mp hrmem
          rw [hpf] at hr
          exact hr
        · intro hex
          apply hmatch
          obtain ⟨x, hx, hsmx⟩ := hex
          refine ⟨x, ?_, hsmx⟩
          apply hperm.mem_iff.mpr
          rw [hpf]
          exact hx
        · intro hall x hx
          have hall2 : ∀ y ∈ getAllPendingByEmail s addr,
              smartMatches y email = false := by
            intro y hy
            apply hall
            have hy2 : y ∈ pendingFor s addr := hperm.mem_iff.mp hy
            rw [hpf] at hy2
            exact hy2
          have hx2 : x ∈ getAllPendingByEmail s addr := by
            apply hperm.mem_iff.mpr
            rw [hpf]
            exact hx
          exact hmin hall2 x hx2

/-- A second pending request for the same address, created later, for a
different service that matches neither sender nor subject. -/
def sampleSecondRequest : WaitRequest :=
  ⟨5, 1, "a@x.com", "anthropic", "https://consumer.example/hook2",
    WaitRequestStatus.pending, none, none, none, 7⟩

/-- Store with two pending requests racing the same address. -/
def sampleTwoRequestStore : Store :=
  ⟨[sampleMailbox], [sampleSecondRequest, samplePendingRequest],
    [sampleEmail, sampleEmptyEmail]⟩

/-- Witness for C4: with two pending requests, the email from
noreply@openai.com smart-matches the "openai" request. -/
theorem findMatchingRequest_resolution_witness :
    2 ≤ (pendingFor sampleTwoRequestStore "a@x.com").length ∧
    ∃ r, findMatchingRequest sampleTwoRequestStore "a@x.com" sampleEmail =
        some r ∧
      r ∈ pendingFor sampleTwoRequestStore "a@x.com" ∧
      ((∃ x ∈ pendingFor sampleTwoRequestStore "a@x.com",
          smartMatches x sampleEmail = true) → smartMatches r sampleEmail = true) ∧
      ((∀ x ∈ pendingFor sampleTwoRequestStore "a@x.com",
          smartMatches x sampleEmail = false) →
        ∀ x ∈ pendingFor sampleTwoRequestStore "a@x.com",
          r.createdAt ≤ x.createdAt) := by
  refine ⟨by decide, ?_⟩
  exact (findMatchingRequest_resolution sampleTwoRequestStore "a@x.com"
    sampleEmail).2.2 (by decide)

/-- A successful conversion carries the parsed message's messageId. -/
theorem convertToEmail_messageId {mailbox : MailboxAccount} {p : ParsedEmail}
    {now freshId : Nat} {em : Email}
    (h : convertToEmail mailbox p now freshId = Except.ok em) :
    em.messageId = p.messageId := by
  unfold convertToEmail Email.create at h
  split at h
  · exact absurd h (by simp)
  · cases h
    rfl

/-- When the dedup check reports the messageId absent, no stored row
carries it. -/
theorem existsByMessageId_false {emails : List Email} {messageId : String}
    (h : existsByMessageId emails messageId = false) :
    ∀ e ∈ emails, e.messageId ≠ messageId := by
  intro e he heq
  have hmem : e ∈ emails.filter (fun x => x.messageId == messageId) :=
    List.mem_filter.mpr ⟨he, by simp [heq]⟩
  simp only [existsByMessageId, decide_eq_false_iff_not, not_lt,
    Nat.le_zero, List.length_eq_zero] at h
  rw [h] at hmem
  exact absurd hmem (List.not_mem_nil e)

/-- The polling fold preserves messageId uniqueness of the store. -/
theorem pollFold_nodup (mailbox : MailboxAccount) (now : Nat) :
    ∀ (ps : List ParsedEmail) (c : Nat) (es : List Email),
      (es.map (fun e => e.messageId)).Nodup →
      ((ps.foldl (pollSaveOne mailbox now) (c, es)).2.map
        (fun e => e.messageId)).Nodup := by
  intro ps
  induction ps with
  | nil => intro c es h; exact h
  | cons p rest ih =>
      intro c es h
      rw [List.foldl_cons]
      unfold pollSaveOne
      dsimp only
      by_cases hex : existsByMessageId es p.messageId = true
      · rw [hex]
        simp only [if_true]
        exact ih c es h
      · have hexf : existsByMessageId es p.messageId = false := by
          simpa using hex
        rw [hexf]
        simp only [Bool.false_eq_true, if_false]
        cases hc : convertToEmail mailbox p now (now + es.length) with
        | error e => exact ih c es h
        | ok em =>
            apply ih
            have hmid : em.messageId = p.messageId := convertToEmail_messageId hc
            have hnotin : p.messageId ∉ es.map (fun e => e.messageId) := by
              intro hmem
              obtain ⟨e, he, heq⟩ := List.mem_map.mp hmem
              exact existsByMessageId_false hexf e he heq
            rw [List.map_append]
            refine List.Nodup.append h (by simp) ?_
            intro a ha hb
            simp only [List.map_cons, List.map_nil, List.mem_singleton] at hb
            rw [hb, hmid] at ha
            exact hnotin ha

/-- C9: a fetched message whose messageId already exists in the store is
skipped, and processing any batch of parsed emails preserves messageId
uniqueness across the store — no two rows ever share a messageId. -/
theorem pollSingleMailbox_dedup (mailbox : MailboxAccount)
    (emails : List Email) (parsedEmails : List ParsedEmail) (now : Nat)
    (h : (emails.map (fun e => e.messageId)).Nodup) :
    ((pollSingleMailbox mailbox emails parsedEmails now).2.map
      (fun e => e.messageId)).Nodup ∧
    (∀ st : Nat × List Email, ∀ p : ParsedEmail,
      existsByMessageId st.2 p.messageId = true →
      pollSaveOne mailbox now st p = st) := by
  refine ⟨pollFold_nodup mailbox now parsedEmails 0 emails h, ?_⟩
  intro st p hex
  cases st with
  | mk c es =>
      unfold pollSaveOne
      dsimp only at hex ⊢
      rw [hex]
      simp

/-- A parsed message duplicating the messageId of `sampleEmail`. -/
def sampleParsed : ParsedEmail :=
  ⟨"<m1@mail>", "noreply@openai.com", "Your verification code", some 5,
    some "Your code is 123456", none⟩

/-- Witness for C9: feeding the same parsed message twice into an empty
store saves exactly one row and keeps messageIds unique. -/
theorem pollSingleMailbox_dedup_witness :
    ((pollSingleMailbox sampleMailbox [] [sampleParsed, sampleParsed] 10).2.map
      (fun e => e.messageId)).Nodup ∧
    (pollSingleMailbox sampleMailbox [] [sampleParsed, sampleParsed]
      10).2.length = 1 := by
  refine ⟨(pollSingleMailbox_dedup sampleMailbox [] [sampleParsed, sampleParsed]
    10 (by decide)).1, by decide⟩

/-- Best-effort mailbox release never touches the request store. -/
theorem releaseMailboxById_requests (s : Store) (mailboxId : Nat) :
    (releaseMailboxById s mailboxId).requests = s.requests := by
  unfold releaseMailboxById
  cases getMailboxById s mailboxId with
  | none => rfl
  | some m =>
      dsimp only
      split
      · rfl
      · split
        · rfl
        · rfl

/-- Best-effort mailbox release never touches the email store. -/
theorem releaseMailboxById_emails (s : Store) (mailboxId : Nat) :
    (releaseMailboxById s mailboxId).emails = s.emails := by
  unfold releaseMailboxById
  cases getMailboxById s mailboxId with
  | none => rfl
  | some m =>
      dsimp only
      split
      · rfl
      · split
        · rfl
        · rfl

/-- After a best-effort release, every stored mailbox with the released id
is Available (given unique mailbox ids). -/
theorem releaseMailboxById_available (s : Store) (mailboxId : Nat)
    (hnodup : (s.mailboxes.map (fun m => m.id)).Nodup) :
    ∀ mb ∈ (releaseMailboxById s mailboxId).mailboxes, mb.id = mailboxId →
      mb.status = MailboxStatus.available := by
  intro mb hmb hid
  unfold releaseMailboxById at hmb
  cases hfind : getMailboxById s mailboxId with
  | none =>
      rw [hfind] at hmb
      unfold getMailboxById at hfind
      have hnone := List.find?_eq_none.mp hfind mb hmb
      simp [hid] at hnone
  | some m₀ =>
      rw [hfind] at hmb
      dsimp only at hmb
      unfold getMailboxById at hfind
      have hm₀mem : m₀ ∈ s.mailboxes := List.mem_of_find?_eq_some hfind
      have hm₀id : m₀.id = mailboxId := by
        simpa using List.find?_some hfind
      by_cases hocc : m₀.isOccupied
      · have hstat : m₀.status = MailboxStatus.occupied := by
          simpa [MailboxAccount.isOccupied] using hocc
        simp only [hocc, Bool.not_true, Bool.false_eq_true, if_false] at hmb
        unfold MailboxAccount.release at hmb
        rw [if_neg (by rw [hstat]; simp)] at hmb
        unfold updateMailbox at hmb
        simp only [List.mem_map] at hmb
        obtain ⟨y, hy, hyeq⟩ := hmb
        by_cases hc : (y.id == m₀.id) = true
        · rw [if_pos hc] at hyeq
          rw [← hyeq]
        · rw [if_neg (by simpa using hc)] at hyeq
          rw [hyeq] at hc
          simp [hid, hm₀id] at hc
      · have hoccf : m₀.isOccupied = false := by simpa using hocc
        simp only [hoccf, Bool.not_false, if_true] at hmb
        have hmb₀ : mb = m₀ :=
          List.inj_on_of_nodup_map hnodup hmb hm₀mem (by rw [hid, hm₀id])
        rw [hmb₀]
        cases hstat : m₀.status with
        | available => rfl
        | occupied =>
            rw [MailboxAccount.isOccupied, hstat] at hoccf
            simp at hoccf

/-- C7: cancelling a non-Pending request fails with ALREADY_TERMINAL
reporting the current status and leaves the whole store untouched;
cancelling a Pending request succeeds, stores the Cancelled request and
releases its mailbox best-effort without the release outcome affecting
success. -/
theorem cancelWait_spec (s : Store) (requestId : Nat) (wr : WaitRequest)
    (hfind : getWaitRequestById s requestId = some wr) :
    (wr.status ≠ WaitRequestStatus.pending →
      cancelWaitRequestHandle s requestId =
        ({ success := false, message := "Request cannot be cancelled"
           errorCode := some "ALREADY_TERMINAL"
           currentStatus := some wr.status.value }, s)) ∧
    (wr.status = WaitRequestStatus.pending →
      (cancelWaitRequestHandle s requestId).1 =
        { success := true, message := "Wait request cancelled successfully"
          errorCode := none, currentStatus := none } ∧
      (∀ x ∈ (cancelWaitRequestHandle s requestId).2.requests, x.id = wr.id →
        x.status = WaitRequestStatus.cancelled) ∧
      (cancelWaitRequestHandle s requestId).2.emails = s.emails ∧
      ((s.mailboxes.map (fun m => m.id)).Nodup →
        ∀ mb ∈ (cancelWaitRequestHandle s requestId).2.mailboxes,
          mb.id = wr.mailboxId → mb.status = MailboxStatus.available)) := by
  have hpend : ∀ h : wr.status = WaitRequestStatus.pending,
      (wr.cancel).2 = { wr with status := WaitRequestStatus.cancelled } := by
    intro h
    unfold WaitRequest.cancel
    rw [if_neg (by simp [h])]
  constructor
  · intro hnp
    unfold cancelWaitRequestHandle
    rw [hfind]
    dsimp only
    have hipf : wr.isPending = false := by
      simp [WaitRequest.isPending, hnp]
    rw [hipf]
    simp
  · intro hp
    have hcancel := hpend hp
    have hhandle : cancelWaitRequestHandle s requestId =
        ({ success := true, message := "Wait request cancelled successfully"
           errorCode := none, currentStatus := none },
          releaseMailboxById
            (updateWaitRequest s { wr with status := WaitRequestStatus.cancelled })
            wr.mailboxId) := by
      unfold cancelWaitRequestHandle
      rw [hfind]
      dsimp only
      have hip : wr.isPending = true := by simp [WaitRequest.isPending, hp]
      rw [hip]
      simp only [Bool.not_true, Bool.false_eq_true, if_false, hcancel]
    rw [hhandle]
    refine ⟨rfl, ?_, releaseMailboxById_emails _ _, ?_⟩
    · intro x hx hxid
      rw [releaseMailboxById_requests] at hx
      unfold updateWaitRequest at hx
      simp only [List.mem_map] at hx
      obtain ⟨y, hy, hyeq⟩ := hx
      by_cases hc : (y.id ==
          ({ wr with status := WaitRequestStatus.cancelled } : WaitRequest).id) =
          true
      · rw [if_pos hc] at hyeq
        rw [← hyeq]
      · rw [if_neg (by simpa using hc)] at hyeq
        rw [hyeq] at hc
        simp [hxid] at hc
    · intro hnodup
      exact releaseMailboxById_available _ wr.mailboxId (by exact hnodup)

/-- Witness for C7: cancelling the completed sample request is rejected
with its status reported and the store unchanged; cancelling the pending
one succeeds. -/
theorem cancelWait_spec_witness :
    cancelWaitRequestHandle sampleCompletedStore 2 =
      ({ success := false, message := "Request cannot be cancelled"
         errorCode := some "ALREADY_TERMINAL"
         currentStatus := some sampleCompletedRequest.status.value },
        sampleCompletedStore) ∧
    (cancelWaitRequestHandle sampleStore 2).1 =
      { success := true, message := "Wait request cancelled successfully"
        errorCode := none, currentStatus := none } := by
  refine ⟨?_, ?_⟩
  · exact (cancelWait_spec sampleCompletedStore 2 sampleCompletedRequest
      (by decide)).1 (by decide)
  · exact ((cancelWait_spec sampleStore 2 samplePendingRequest
      (by decide)).2 (by decide)).1

/-- A string has length zero exactly when it is empty. -/
theorem strLength_eq_zero {s : String} : s.length = 0 ↔ s = "" := by
  cases s with
  | mk data =>
      cases data with
      | nil => simp
      | cons a as =>
          constructor
          · intro h
            simp [String.length] at h
          · intro h
            have hd := congrArg String.data h
            simp at hd

/-- Membership in the pending-rows filter, unpacked. -/
theorem pendingFor_mem {s : Store} {addr : String} {r : WaitRequest} :
    r ∈ pendingFor s addr ↔
      r ∈ s.requests ∧ r.email = addr ∧
      r.status = WaitRequestStatus.pending := by
  unfold pendingFor
  rw [List.mem_filter]
  simp [Bool.and_eq_true]

/-- A request resolved by _find_matching_request is a stored pending
request for the address. -/
theorem findMatchingRequest_pending {s : Store} {addr : String}
    {email : Email} {wr : WaitRequest}
    (h : findMatchingRequest s addr email = some wr) :
    wr ∈ s.requests ∧ wr.email = addr ∧
    wr.status = WaitRequestStatus.pending := by
  unfold findMatchingRequest at h
  cases hpe : getPendingByEmail s addr with
  | none => rw [hpe] at h; exact absurd h (by simp)
  | some single =>
      rw [hpe] at h
      dsimp only at h
      have hperm := getAllPendingByEmail_perm s addr
      split at h
      · -- single-request branch
        cases h
        unfold getPendingByEmail at hpe
        cases hpf : pendingFor s addr with
        | nil => rw [hpf] at hpe; exact absurd hpe (by simp)
        | cons r₀ rest =>
            rw [hpf] at hpe
            simp at hpe
            apply pendingFor_mem.mp
            rw [hpf, hpe]
            exact List.mem_cons_self wr rest
      · -- smart-match branch
        have hlne : getAllPendingByEmail s addr ≠ [] := by
          intro hh
          rw [hh] at h
          simp [smartMatch, minByCreatedAt] at h
        obtain ⟨r, hsm, hrmem, _, _⟩ :=
          smartMatch_spec (getAllPendingByEmail s addr) email hlne
        rw [hsm] at h
        cases h
        exact pendingFor_mem.mp (hperm.mem_iff.mp hrmem)

/-- In an updated email store, every row carrying the updated id is the
updated row. -/
theorem updateEmail_mem {s : Store} {em : Email} :
    ∀ x ∈ (updateEmail s em).emails, x.id = em.id → x = em := by
  intro x hx hid
  unfold updateEmail at hx
  simp only [List.mem_map] at hx
  obtain ⟨y, hy, hyeq⟩ := hx
  by_cases hc : (y.id == em.id) = true
  · rw [if_pos hc] at hyeq
    exact hyeq.symm
  · rw [if_neg (by simpa using hc)] at hyeq
    rw [hyeq] at hc
    exact absurd (by simp [hid]) hc

/-- In an updated request store, every row carrying the updated id is the
updated row. -/
theorem updateWaitRequest_mem {s : Store} {r : WaitRequest} :
    ∀ x ∈ (updateWaitRequest s r).requests, x.id = r.id → x = r := by
  intro x hx hid
  unfold updateWaitRequest at hx
  simp only [List.mem_map] at hx
  obtain ⟨y, hy, hyeq⟩ := hx
  by_cases hc : (y.id == r.id) = true
  · rw [if_pos hc] at hyeq
    exact hyeq.symm
  · rw [if_neg (by simpa using hc)] at hyeq
    rw [hyeq] at hc
    exact absurd (by simp [hid]) hc

/-- mark_processed_if_needed with mark_as_processed=True always yields the
processed email (already-processed emails are left as they are, which is
the same record). -/
theorem markProcessedIfNeeded_eq (email : Email) :
    markProcessedIfNeeded email true = { email with isProcessed := true } := by
  unfold markProcessedIfNeeded Email.markAsProcessed
  by_cases h : email.isProcessed
  · simp only [h, Bool.not_true, Bool.and_false, Bool.false_eq_true, if_false]
    cases email
    simp_all
  · have hf : email.isProcessed = false := by simpa using h
    simp [hf]

/-- unified_extract_from_email on a non-empty body runs the extractor and
marks the email processed. -/
theorem unifiedExtract_nonempty (extract : String → ExtractionResult)
    {email : Email} (hb : email.body ≠ "") :
    unifiedExtractFromEmail extract email true =
      (extract email.body, { email with isProcessed := true }) := by
  unfold unifiedExtractFromEmail
  dsimp only
  rw [if_neg (fun hc => hb (strLength_eq_zero.mp hc)), markProcessedIfNeeded_eq]

/-- unified_extract_from_email on an empty body short-circuits, leaving
the email untouched (not marked processed). -/
theorem unifiedExtract_empty (extract : String → ExtractionResult)
    {email : Email} (hb : email.body = "") :
    unifiedExtractFromEmail extract email true = (emptyBodyResult, email) := by
  unfold unifiedExtractFromEmail
  dsimp only
  rw [if_pos (by rw [hb]; rfl)]

/-- Completing a pending request yields the completed record. -/
theorem complete_of_pending {wr : WaitRequest} (v : Option String) (now : Nat)
    (hp : wr.status = WaitRequestStatus.pending) :
    wr.complete v now =
      (none, { wr with
        status := WaitRequestStatus.completed
        completedAt := some now
        extractionResult := v }) := by
  unfold WaitRequest.complete
  rw [if_neg (by simp [hp])]

/-- notify on a non-pending request with a failing sender: the request is
not downgraded, the mailbox is released, failure is reported. -/
theorem notify_fail_nonpending (send : String → WebhookPayload → WebhookResult)
    (s : Store) (waitRequest : WaitRequest) (extractionType : String)
    (extractionValue : Option String) (receivedAt : Option Nat)
    (hsend : ∀ url p, (send url p).success = false)
    (hnp : waitRequest.isPending = false) :
    notify send s waitRequest extractionType extractionValue receivedAt =
      ({ success := false
         retryCount := (send waitRequest.callbackUrl
           { requestId := waitRequest.id
             type := extractionType
             value := extractionValue
             email := waitRequest.email
             service := waitRequest.serviceName
             receivedAt := receivedAt }).retryCount
         errorMessage := (send waitRequest.callbackUrl
           { requestId := waitRequest.id
             type := extractionType
             value := extractionValue
             email := waitRequest.email
             service := waitRequest.serviceName
             receivedAt := receivedAt }).errorMessage },
        waitRequest, releaseMailboxById s waitRequest.mailboxId) := by
  unfold notify
  dsimp only
  rw [hsend]
  simp only [Bool.false_eq_true, if_false]
  rw [hnp]
  simp only [Bool.false_eq_true, if_false]

/-- C3 (amended): when a matched email's extraction yields nothing usable
the request stays Pending and the request store is untouched; the email is
marked processed and persisted when its body is non-empty, but an email
whose body resolves to the empty string is persisted unmarked — the
empty-body short-circuit skips the processed flag. -/
theorem processEmail_unusable_extraction
    (extract : String → ExtractionResult)
    (webhookSend : Option (String → WebhookPayload → WebhookResult))
    (s : Store) (email : Email) (now : Nat) (mailbox : MailboxAccount)
    (wr : WaitRequest)
    (hm : getMailboxById s email.mailboxId = some mailbox)
    (hr : findMatchingRequest s mailbox.username email = some wr)
    (hx : (extract email.body).isSuccessful = false) :
    ∃ res s', processEmail extract webhookSend s email now =
        Except.ok (res, s') ∧
      res.matched = true ∧ res.waitRequestId = some wr.id ∧
      res.message = "Matched but extraction failed" ∧
      s'.requests = s.requests ∧ wr ∈ s.requests ∧
      wr.status = WaitRequestStatus.pending ∧
      (∀ x ∈ s'.emails, x.id = email.id →
        x.isProcessed = (if email.body = "" then email.isProcessed else true)) := by
  obtain ⟨hmem, hemail, hp⟩ := findMatchingRequest_pending hr
  by_cases hb : email.body = ""
  · have hue := unifiedExtract_empty extract hb
    have hcomp : processEmail extract webhookSend s email now =
        Except.ok
          ({ matched := true, waitRequestId := some wr.id
             extractionType := none, extractionValue := none
             callbackSuccess := none, callbackError := none
             message := "Matched but extraction failed" },
            updateEmail s email) := by
      unfold processEmail
      rw [hm]
      dsimp only
      rw [hr]
      dsimp only
      rw [hue]
      dsimp only
      rw [show emptyBodyResult.isSuccessful = false from rfl]
      simp only [Bool.false_eq_true, if_false]
    refine ⟨_, _, hcomp, rfl, rfl, rfl, rfl, hmem, hp, ?_⟩
    intro x hx2 hid
    rw [updateEmail_mem x hx2 hid]
    simp [hb]
  · have hue := unifiedExtract_nonempty extract hb
    have hcomp : processEmail extract webhookSend s email now =
        Except.ok
          ({ matched := true, waitRequestId := some wr.id
             extractionType := none, extractionValue := none
             callbackSuccess := none, callbackError := none
             message := "Matched but extraction failed" },
            updateEmail s { email with isProcessed := true }) := by
      unfold processEmail
      rw [hm]
      dsimp only
      rw [hr]
      dsimp only
      rw [hue]
      dsimp only
      rw [hx]
      simp only [Bool.false_eq_true, if_false]
    refine ⟨_, _, hcomp, rfl, rfl, rfl, rfl, hmem, hp, ?_⟩
    intro x hx2 hid
    rw [updateEmail_mem x hx2 hid]
    simp [hb]

/-- An extractor that never finds anything. -/
def sampleEmptyExtract : String → ExtractionResult :=
  fun _ => ⟨ExtractionType.unknown, none, none, none, some "nothing"⟩

/-- Counterexample for C3 as stated: processing the matched empty-body
email leaves it persisted with isProcessed = false, not true. -/
theorem processEmail_empty_body_unmarked_cex :
    ((processEmail sampleEmptyExtract none sampleStore sampleEmptyEmail
        10).toOption.map
      (fun p => (p.1.matched,
        p.2.emails.map (fun e => (e.id, e.isProcessed))))) =
      some (true, [(3, false), (4, false)]) := by
  decide

/-- Witness for C3 (amended) at the matched non-empty-body email with a
failing extractor, and at the matched empty-body email. -/
theorem processEmail_unusable_extraction_witness :
    (∃ res s', processEmail sampleEmptyExtract none sampleStore sampleEmail 10 =
        Except.ok (res, s') ∧
      res.matched = true ∧ res.waitRequestId = some samplePendingRequest.id ∧
      res.message = "Matched but extraction failed" ∧
      s'.requests = sampleStore.requests ∧
      samplePendingRequest ∈ sampleStore.requests ∧
      samplePendingRequest.status = WaitRequestStatus.pending ∧
      (∀ x ∈ s'.emails, x.id = sampleEmail.id →
        x.isProcessed =
          (if sampleEmail.body = "" then sampleEmail.isProcessed else true))) ∧
    (∃ res s', processEmail sampleEmptyExtract none sampleStore
          sampleEmptyEmail 10 = Except.ok (res, s') ∧
      res.matched = true ∧ res.waitRequestId = some samplePendingRequest.id ∧
      res.message = "Matched but extraction failed" ∧
      s'.requests = sampleStore.requests ∧
      samplePendingRequest ∈ sampleStore.requests ∧
      samplePendingRequest.status = WaitRequestStatus.pending ∧
      (∀ x ∈ s'.emails, x.id = sampleEmptyEmail.id →
        x.isProcessed =
          (if sampleEmptyEmail.body = "" then sampleEmptyEmail.isProcessed
           else true))) := by
  constructor
  · exact processEmail_unusable_extraction sampleEmptyExtract none sampleStore
      sampleEmail 10 sampleMailbox samplePendingRequest (by decide) (by decide)
      (by decide)
  · exact processEmail_unusable_extraction sampleEmptyExtract none sampleStore
      sampleEmptyEmail 10 sampleMailbox samplePendingRequest (by decide)
      (by decide) (by decide)

/-- C2 (amended): when extraction succeeds but every webhook delivery
attempt fails, the WaitRequest ends Completed — completion happens before
dispatch and the non-Pending request is never downgraded to Failed — with
failureReason untouched; the delivery failure is reported in the match
result and the mailbox lease is released regardless. -/
theorem processEmail_webhook_all_fail
    (extract : String → ExtractionResult)
    (send : String → WebhookPayload → WebhookResult)
    (s : Store) (email : Email) (now : Nat) (mailbox : MailboxAccount)
    (wr : WaitRequest)
    (hm : getMailboxById s email.mailboxId = some mailbox)
    (hr : findMatchingRequest s mailbox.username email = some wr)
    (hb : email.body ≠ "")
    (hx : (extract email.body).isSuccessful = true)
    (hsend : ∀ url p, (send url p).success = false)
    (hnodup : (s.mailboxes.map (fun m => m.id)).Nodup) :
    ∃ res s', processEmail extract (some send) s email now =
        Except.ok (res, s') ∧
      res.matched = true ∧
      res.callbackSuccess = some false ∧
      (∀ x ∈ s'.requests, x.id = wr.id →
        x.status = WaitRequestStatus.completed ∧
        x.status ≠ WaitRequestStatus.failed ∧
        x.failureReason = wr.failureReason ∧
        x.extractionResult = (extract email.body).value) ∧
      (∀ mb ∈ s'.mailboxes, mb.id = wr.mailboxId →
        mb.status = MailboxStatus.available) := by
  obtain ⟨hmem, hemail, hp⟩ := findMatchingRequest_pending hr
  have hue := unifiedExtract_nonempty extract hb
  have hcompl := complete_of_pending (extract email.body).value now hp
  have hnotify := notify_fail_nonpending send
    (updateWaitRequest (updateEmail s { email with isProcessed := true })
      { wr with
        status := WaitRequestStatus.completed
        completedAt := some now
        extractionResult := (extract email.body).value })
    { wr with
      status := WaitRequestStatus.completed
      completedAt := some now
      extractionResult := (extract email.body).value }
    (extract email.body).type.value (extract email.body).value
    email.receivedAt hsend rfl
  have hcomp : processEmail extract (some send) s email now =
      Except.ok
        ({ matched := true
           waitRequestId := some wr.id
           extractionType := some (extract email.body).type.value
           extractionValue := (extract email.body).value
           callbackSuccess := some false
           callbackError := some (send wr.callbackUrl
             { requestId := wr.id
               type := (extract email.body).type.value
               value := (extract email.body).value
               email := wr.email
               service := wr.serviceName
               receivedAt := email.receivedAt }).errorMessage
           message := "Successfully matched and extracted" },
          releaseMailboxById
            (updateWaitRequest (updateEmail s { email with isProcessed := true })
              { wr with
                status := WaitRequestStatus.completed
                completedAt := some now
                extractionResult := (extract email.body).value })
            wr.mailboxId) := by
    unfold processEmail
    rw [hm]
    dsimp only
    rw [hr]
    dsimp only
    rw [hue]
    dsimp only
    rw [hx]
    simp only [if_true]
    rw [hcompl]
    dsimp only
    rw [hnotify]
    dsimp only
    simp only [Bool.false_eq_true, if_false]
  refine ⟨_, _, hcomp, rfl, rfl, ?_, ?_⟩
  · intro x hx2 hid
    rw [releaseMailboxById_requests] at hx2
    have hx3 := updateWaitRequest_mem x hx2 hid
    rw [hx3]
    exact ⟨rfl, by simp, rfl, rfl⟩
  · intro mb hmb hid
    exact releaseMailboxById_available
      (updateWaitRequest (updateEmail s { email with isProcessed := true })
        { wr with
          status := WaitRequestStatus.completed
          completedAt := some now
          extractionResult := (extract email.body).value })
      wr.mailboxId hnodup mb hmb hid

/-- Counterexample for C2 as stated: after the end-to-end run with every
webhook attempt failing, the stored request is Completed with no
failureReason — not Failed with the delivery error. -/
theorem processEmail_webhook_all_fail_cex :
    ((processEmail sampleExtract (some sampleFailSend) sampleStore sampleEmail
        10).toOption.bind
      (fun p => getWaitRequestById p.2 2)).map
        (fun r => (r.status, r.failureReason)) =
      some (WaitRequestStatus.completed, none) ∧
    WaitRequestStatus.completed ≠ WaitRequestStatus.failed := by
  exact ⟨by decide, by decide⟩

/-- Witness for C2 (amended) at the sample store with the always-failing
webhook client. -/
theorem processEmail_webhook_all_fail_witness :
    ∃ res s', processEmail sampleExtract (some sampleFailSend) sampleStore
        sampleEmail 10 = Except.ok (res, s') ∧
      res.matched = true ∧
      res.callbackSuccess = some false ∧
      (∀ x ∈ s'.requests, x.id = samplePendingRequest.id →
        x.status = WaitRequestStatus.completed ∧
        x.status ≠ WaitRequestStatus.failed ∧
        x.failureReason = samplePendingRequest.failureReason ∧
        x.extractionResult = (sampleExtract sampleEmail.body).value) ∧
      (∀ mb ∈ s'.mailboxes, mb.id = samplePendingRequest.mailboxId →
        mb.status = MailboxStatus.available) := by
  exact processEmail_webhook_all_fail sampleExtract sampleFailSend sampleStore
    sampleEmail 10 sampleMailbox samplePendingRequest (by decide) (by decide)
    (by decide) (by decide) (fun _ _ => rfl) (by decide)

end DddCore
